import Mathlib

/-!
Shallow embedding of the codecrafters HTTP server (Rust sources
`src/http.rs`, `src/router.rs`, `src/server.rs`, `src/error.rs`) and
verification of the specification claims about it.

Strings from the Rust code are modelled as `List Char`; byte sequences
(`Vec<u8>`, `&[u8]`) as `List Nat` with UTF-8 encoding for `str::as_bytes`.
`HashMap<String, String>` is modelled as an association list with
overwrite-on-insert (`insertHdr`) and key lookup (`lookupHdr`); iteration
order in serialization follows the list order (the spec leaves header
order unconstrained).  The gzip encoder from the external `flate2` crate
is an arbitrary parameter `gzipFn` of the serialization functions.
Fallible Rust code returning `Result` is modelled with `Except HttpError`.
-/

set_option maxRecDepth 4096

deriving instance DecidableEq for Except

abbrev Str := List Char

abbrev Headers := List (Str × Str)

/-- Errors of `src/error.rs` (`enum HttpError`). -/
inductive HttpError where
  | MissingMethod
  | MissingPath
  | MissingVersion
  | MissingHeaderKey
  | MissingHeaderValue
  | InvalidContentLength
  | MissingRequestLine
  | EmptyRequestLine
  | UnsupportedVersion
deriving DecidableEq, Repr

/-- `const CRLF: &str = "\r\n"` from `src/http.rs`. -/
def CRLF : Str := ['\r', '\n']

/-- `const HTTP_VERSION_1_1: &str = "HTTP/1.1"`. -/
def HTTP_VERSION_1_1 : Str := "HTTP/1.1".data

/-- `const KEEP_ALIVE: &str = "keep-alive"`. -/
def KEEP_ALIVE : Str := "keep-alive".data

/-- `const CONTENT_ENCODING: &str = "Content-Encoding"`. -/
def CONTENT_ENCODING : Str := "Content-Encoding".data

/-- `const ACCEPT_ENCODING: &str = "Accept-Encoding"`. -/
def ACCEPT_ENCODING : Str := "Accept-Encoding".data

/-- `const ENCODING_GZIP: &str = "gzip"`. -/
def ENCODING_GZIP : Str := "gzip".data

/-- `const CONTENT_LENGTH: &str = "Content-Length"`. -/
def CONTENT_LENGTH : Str := "Content-Length".data

/-- `const CONNECTION: &str = "Connection"`. -/
def CONNECTION : Str := "Connection".data

/-- `const CONTENT_TYPE: &str = "Content-Type"`. -/
def CONTENT_TYPE : Str := "Content-Type".data

/-- `const CT_TEXT_PLAIN: &str = "text/plain"`. -/
def CT_TEXT_PLAIN : Str := "text/plain".data

/-- `const USER_AGENT: &str = "User-Agent"`. -/
def USER_AGENT : Str := "User-Agent".data

/-- `const CT_APPLICATION_OCTET_STREAM: &str = "application/octet-stream"`. -/
def CT_APPLICATION_OCTET_STREAM : Str := "application/octet-stream".data

/-- `const METHOD_GET: &str = "GET"`. -/
def METHOD_GET : Str := "GET".data

/-- `const METHOD_POST: &str = "POST"`. -/
def METHOD_POST : Str := "POST".data

/-- Flattened map, modelling Rust iterator `flat_map` / repeated `extend`. -/
def flatCat (f : α → List β) : List α → List β
  | [] => []
  | x :: xs => f x ++ flatCat f xs

/-- UTF-8 encoding of one character (what `str::as_bytes` yields per char). -/
def charUtf8 (c : Char) : List Nat :=
  let n := c.toNat
  if n < 128 then [n]
  else if n < 2048 then [192 + n / 64, 128 + n % 64]
  else if n < 65536 then [224 + n / 4096, 128 + (n / 64) % 64, 128 + n % 64]
  else [240 + n / 262144, 128 + (n / 4096) % 64, 128 + (n / 64) % 64, 128 + n % 64]

/-- Model of `str::as_bytes` (UTF-8 bytes of the string). -/
def asBytes (s : Str) : List Nat := flatCat charUtf8 s

/-- Model of Rust's `str::split` with a two-character pattern `[a, b]`
(leftmost, non-overlapping; our patterns "\r\n", ": ", ", " never
self-overlap).  Like Rust, splitting the empty string yields `[""]`. -/
def splitOn2 (a b : Char) : Str → List Str
  | [] => [[]]
  | [c] => [[c]]
  | c1 :: c2 :: rest =>
    if c1 = a ∧ c2 = b then [] :: splitOn2 a b rest
    else
      match splitOn2 a b (c2 :: rest) with
      | [] => [[c1]]
      | l :: ls => (c1 :: l) :: ls

/-- Whether the two-character pattern `[a, b]` occurs in the string
(model of `str::contains` for such patterns). -/
def contains2 (a b : Char) : Str → Bool
  | [] => false
  | [_] => false
  | c1 :: c2 :: rest => if c1 = a ∧ c2 = b then true else contains2 a b (c2 :: rest)

/-- Model of Rust's `str::split` with a single-character pattern. -/
def splitOn1 (a : Char) : Str → List Str
  | [] => [[]]
  | c :: rest =>
    if c = a then [] :: splitOn1 a rest
    else
      match splitOn1 a rest with
      | [] => [[c]]
      | l :: ls => (c :: l) :: ls

/-- Whitespace predicate used by `char::is_whitespace` (ASCII fragment;
the requests in play only contain ASCII whitespace). -/
def isWS (c : Char) : Bool :=
  c = ' ' || c = '\t' || c = '\n' || c = '\x0b' || c = '\x0c' || c = '\r'

/-- Accumulator pass for `str::split_whitespace` (tokens are maximal
non-whitespace runs; empty tokens never appear). -/
def splitWSAux (acc : Str) : Str → List Str
  | [] => if acc = [] then [] else [acc.reverse]
  | c :: rest =>
    if isWS c then
      if acc = [] then splitWSAux [] rest else acc.reverse :: splitWSAux [] rest
    else splitWSAux (c :: acc) rest

/-- Model of Rust's `str::split_whitespace`. -/
def split_whitespace (s : Str) : List Str := splitWSAux [] s

/-- Model of Rust's `str::trim` (drop whitespace at both ends). -/
def rustTrim (s : Str) : Str :=
  ((s.dropWhile isWS).reverse.dropWhile isWS).reverse

/-- Iteration core of `trimStartMatches`; the fuel only bounds the loop
count (each strip of a non-empty matching pattern shortens the string, so
a fuel of the string's length always suffices). -/
def trimStartMatchesAux : Nat → Str → Str → Str
  | 0, _, s => s
  | fuel + 1, pat, s =>
    if pat ≠ [] ∧ pat.isPrefixOf s then trimStartMatchesAux fuel pat (s.drop pat.length)
    else s

/-- Model of `str::trim_start_matches(pat)` for a string pattern: repeatedly
strip the pattern while it is a prefix. -/
def trimStartMatches (pat : Str) (s : Str) : Str :=
  trimStartMatchesAux s.length pat s

/-- Model of `usize::from_str` (as called by `str::parse::<usize>()`):
optional leading plus sign, one or more ASCII digits, no other characters,
and the value must fit in 64-bit `usize`. -/
def parseUsize (s : Str) : Option Nat :=
  let t := match s with
    | '+' :: rest => rest
    | _ => s
  if t = [] then none
  else if t.all (fun c => c.isDigit) then
    let n := t.foldl (fun a c => a * 10 + (c.toNat - 48)) 0
    if n < 2 ^ 64 then some n else none
  else none

/-- `HashMap::get` on the association-list model. -/
def lookupHdr : Headers → Str → Option Str
  | [], _ => none
  | kv :: t, k => if kv.1 = k then some kv.2 else lookupHdr t k

/-- `HashMap::insert` on the association-list model: a later occurrence of
the same key overwrites the former. -/
def insertHdr : Headers → Str → Str → Headers
  | [], k, v => [(k, v)]
  | kv :: t, k, v => if kv.1 = k then (k, v) :: t else kv :: insertHdr t k v

/-- `struct RequestLine` from `src/http.rs`. -/
structure RequestLine where
  method : Str
  path : Str
  version : Str
deriving DecidableEq, Repr

/-- `RequestLine::from_line`: split on whitespace, take method, path and
version in order, each missing token failing with its own error, and the
version must be the literal "HTTP/1.1". -/
def RequestLine.from_line (line : Str) : Except HttpError RequestLine :=
  match split_whitespace line with
  | [] => .error .MissingMethod
  | [_] => .error .MissingPath
  | [_, _] => .error .MissingVersion
  | method :: path :: version :: _ =>
    if version ≠ HTTP_VERSION_1_1 then .error .UnsupportedVersion
    else .ok { method := method, path := path, version := version }

/-- `struct HttpRequest` from `src/http.rs`. -/
structure HttpRequest where
  line : RequestLine
  headers : Headers
  connection : Str
  body : List Nat
deriving DecidableEq, Repr

/-- `HttpRequest::new`: `connection` is the `Connection` header, defaulting
to "keep-alive" when absent. -/
def HttpRequest.new (line : RequestLine) (headers : Headers) (body : List Nat) : HttpRequest :=
  { line := line
    headers := headers
    connection := (lookupHdr headers CONNECTION).getD KEEP_ALIVE
    body := body }

/-- The key/value extraction done for one line of the header loop in
`HttpRequest::parse_headers`: `line.split(": ")` followed by two
`next()` calls. -/
def HttpRequest.parse_header_line (line : Str) : Except HttpError (Str × Str) :=
  match splitOn2 ':' ' ' line with
  | [] => .error .MissingHeaderKey
  | [_] => .error .MissingHeaderValue
  | k :: v :: _ => .ok (k, v)

/-- The loop of `HttpRequest::parse_headers`: insert each parsed line into
the map, stopping at the first empty line. -/
def HttpRequest.parse_headersAux (hdrs : Headers) : List Str → Except HttpError Headers
  | [] => .ok hdrs
  | line :: rest =>
    if line = [] then .ok hdrs
    else
      match HttpRequest.parse_header_line line with
      | .error e => .error e
      | .ok kv => HttpRequest.parse_headersAux (insertHdr hdrs kv.1 kv.2) rest

/-- `HttpRequest::parse_headers`. -/
def HttpRequest.parse_headers (header_lines : List Str) : Except HttpError Headers :=
  HttpRequest.parse_headersAux [] header_lines

/-- `HttpRequest::parse_body`: read `Content-Length` (default 0, failing
with `InvalidContentLength` when unparsable), and for a non-zero length
reassemble the body as the concatenated bytes of the body lines, failing
unless the length matches exactly. -/
def HttpRequest.parse_body (headers : Headers) (body_lines : List Str) :
    Except HttpError (List Nat) :=
  match lookupHdr headers CONTENT_LENGTH with
  | none => .ok []
  | some s =>
    match parseUsize s with
    | none => .error .InvalidContentLength
    | some content_length =>
      if content_length ≠ 0 then
        let body := flatCat asBytes body_lines
        if body.length ≠ content_length then .error .InvalidContentLength
        else .ok body
      else .ok []

/-- `HttpRequest::from_lines`. -/
def HttpRequest.from_lines (request_line : Str) (header_lines body_lines : List Str) :
    Except HttpError HttpRequest :=
  match RequestLine.from_line request_line with
  | .error e => .error e
  | .ok line =>
    match HttpRequest.parse_headers header_lines with
    | .error e => .error e
    | .ok headers =>
      match HttpRequest.parse_body headers body_lines with
      | .error e => .error e
      | .ok body => .ok (HttpRequest.new line headers body)

/-- `HttpRequest::from_strings`: first line is the request line (absence
fails with `MissingRequestLine`), header lines run up to the first empty
line, the body lines are everything after that empty line. -/
def HttpRequest.from_strings (strings : List Str) : Except HttpError HttpRequest :=
  match strings.head? with
  | none => .error .MissingRequestLine
  | some request_line =>
    let headers := (strings.drop 1).takeWhile (fun l => !l.isEmpty)
    let body := strings.drop (1 + headers.length + 1)
    HttpRequest.from_lines request_line headers body

/-- `HttpRequest::from_string`: split the raw string on CRLF and parse. -/
def HttpRequest.from_string (s : Str) : Except HttpError HttpRequest :=
  HttpRequest.from_strings (splitOn2 '\r' '\n' s)

/-- `struct StatusCode(u16)` from `src/http.rs`. -/
structure StatusCode where
  code : Nat
deriving DecidableEq, Repr

/-- `StatusCode::OK`. -/
def StatusCode.OK : StatusCode := ⟨200⟩

/-- `StatusCode::CREATED`. -/
def StatusCode.CREATED : StatusCode := ⟨201⟩

/-- `StatusCode::NOT_FOUND`. -/
def StatusCode.NOT_FOUND : StatusCode := ⟨404⟩

/-- `StatusCode::NOT_ALLOWED`. -/
def StatusCode.NOT_ALLOWED : StatusCode := ⟨405⟩

/-- `StatusCode::INTERNAL_SERVER_ERROR`. -/
def StatusCode.INTERNAL_SERVER_ERROR : StatusCode := ⟨500⟩

/-- `StatusCode::as_str`. -/
def StatusCode.as_str (s : StatusCode) : Str :=
  match s.code with
  | 200 => "200 OK".data
  | 201 => "201 Created".data
  | 404 => "404 Not Found".data
  | 405 => "405 Method Not Allowed".data
  | 500 => "500 Internal Server Error".data
  | _ => "500 Internal Server Error".data

/-- `struct HttpResponse` from `src/http.rs`. -/
structure HttpResponse where
  status_code : StatusCode
  headers : Headers
  body : List Nat
deriving DecidableEq, Repr

/-- `HttpResponse::new`. -/
def HttpResponse.new (status_code : StatusCode) (body : List Nat) (headers : Headers) :
    HttpResponse :=
  { status_code := status_code, headers := headers, body := body }

/-- `HttpResponse::ok`. -/
def HttpResponse.ok (body : List Nat) (headers : Headers) : HttpResponse :=
  HttpResponse.new StatusCode.OK body headers

/-- `HttpResponse::from_status_code`. -/
def HttpResponse.from_status_code (status_code : StatusCode) : HttpResponse :=
  HttpResponse.new status_code [] []

/-- `HttpResponse::created`. -/
def HttpResponse.created : HttpResponse := HttpResponse.from_status_code StatusCode.CREATED

/-- `HttpResponse::not_found`. -/
def HttpResponse.not_found : HttpResponse := HttpResponse.from_status_code StatusCode.NOT_FOUND

/-- `HttpResponse::method_not_allowed`. -/
def HttpResponse.method_not_allowed : HttpResponse :=
  HttpResponse.from_status_code StatusCode.NOT_ALLOWED

/-- `HttpResponse::internal_server_error`. -/
def HttpResponse.internal_server_error : HttpResponse :=
  HttpResponse.from_status_code StatusCode.INTERNAL_SERVER_ERROR

/-- `HttpResponse::encode_body_content`: gzip-compress the body when the
response's own `Content-Encoding` header equals "gzip", otherwise return
the body unchanged.  The gzip encoder itself lives in the external
`flate2` crate, hence the `gzipFn` parameter. -/
def encode_body_content (gzipFn : List Nat → List Nat) (r : HttpResponse) : List Nat :=
  match lookupHdr r.headers CONTENT_ENCODING with
  | some content_encoding =>
    if content_encoding = ENCODING_GZIP then gzipFn r.body else r.body
  | none => r.body

/-- `HttpResponse::to_bytes`: status line, header lines, then for an empty
body a single blank line; for a non-empty body the encoded body's
`Content-Length` header, the blank line, and the encoded body. -/
def HttpResponse.to_bytes (gzipFn : List Nat → List Nat) (r : HttpResponse) : List Nat :=
  let response : List Nat := []
  let response := response ++ asBytes (HTTP_VERSION_1_1 ++ " ".data ++ r.status_code.as_str)
  let response := response ++ asBytes CRLF
  let response := r.headers.foldl
    (fun resp kv => resp ++ asBytes kv.1 ++ asBytes ": ".data ++ asBytes kv.2 ++ asBytes CRLF)
    response
  if r.body = [] then response ++ asBytes CRLF
  else
    let body := encode_body_content gzipFn r
    let response := response ++ asBytes (CONTENT_LENGTH ++ ": ".data ++ Nat.toDigits 10 body.length)
    let response := response ++ asBytes CRLF
    let response := response ++ asBytes CRLF
    response ++ body

/-- `struct Route` from `src/router.rs`. -/
structure Route where
  path : Str
  handler : HttpRequest → HttpResponse

/-- `struct Router` from `src/router.rs`. -/
structure Router where
  routes : List Route

/-- `Router::parse_path`: strip the leading slashes
(`trim_start_matches('/')` removes every leading '/'), then the first
'/'-separated component. -/
def Router.parse_path (path : Str) : Str :=
  (path.dropWhile (fun c => c = '/')).takeWhile (fun c => c ≠ '/')

/-- The route-scanning loop of `Router::resolve`. -/
def Router.resolveGo (req : HttpRequest) : List Route → HttpResponse
  | [] => HttpResponse.not_found
  | route :: rest =>
    if Router.parse_path req.line.path = Router.parse_path route.path then route.handler req
    else Router.resolveGo req rest

/-- `Router::resolve`: first registered route whose parsed path equals the
request's parsed path wins; otherwise the canonical not-found response.
The Rust function returns `Result` but has no error path. -/
def Router.resolve (router : Router) (req : HttpRequest) : HttpResponse :=
  Router.resolveGo req router.routes

/-- `accept_encoding` from `src/router.rs`: split the `Accept-Encoding`
request header on ", ", trim each token, drop empties, and insert
`Content-Encoding: gzip` for every token equal to "gzip". -/
def accept_encoding (req : HttpRequest) (headers : Headers) : Headers :=
  match lookupHdr req.headers ACCEPT_ENCODING with
  | none => headers
  | some encoding_str =>
    let encodings := (((splitOn2 ',' ' ' encoding_str).map rustTrim).filter (fun s => s ≠ []))
    encodings.foldl
      (fun hs encoding =>
        if encoding = ENCODING_GZIP then insertHdr hs CONTENT_ENCODING encoding else hs)
      headers

/-- The `"/"` route handler registered by `make_router`. -/
def rootHandler (request : HttpRequest) : HttpResponse :=
  if request.line.method = METHOD_GET then HttpResponse.ok [] []
  else HttpResponse.method_not_allowed

/-- The `"/echo"` route handler registered by `make_router`. -/
def echoHandler (request : HttpRequest) : HttpResponse :=
  if request.line.method = METHOD_GET then
    let path_without := trimStartMatches "/echo/".data request.line.path
    let headers := insertHdr [] CONTENT_TYPE CT_TEXT_PLAIN
    let headers := accept_encoding request headers
    HttpResponse.ok (asBytes path_without) headers
  else HttpResponse.method_not_allowed

/-- The `"/user-agent"` route handler registered by `make_router`. -/
def userAgentHandler (request : HttpRequest) : HttpResponse :=
  if request.line.method = METHOD_GET then
    let user_agent := (lookupHdr request.headers USER_AGENT).getD []
    let headers := insertHdr [] CONTENT_TYPE CT_TEXT_PLAIN
    let headers := accept_encoding request headers
    HttpResponse.ok (asBytes user_agent) headers
  else HttpResponse.method_not_allowed

/-- The `"/files"` route handler registered by `make_router`.  The file
storage is the external collaborator of the spec, modelled by the read
and write functions passed in. -/
def filesHandler (fsRead : Str → Option (List Nat)) (fsWrite : Str → List Nat → Bool)
    (pub_dir : Str) (request : HttpRequest) : HttpResponse :=
  let headers := insertHdr [] CONTENT_TYPE CT_APPLICATION_OCTET_STREAM
  let headers := accept_encoding request headers
  let file := trimStartMatches "/files/".data request.line.path
  let file := pub_dir ++ "/".data ++ file
  if request.line.method = METHOD_GET then
    match fsRead file with
    | some body => HttpResponse.new StatusCode.OK body headers
    | none => HttpResponse.not_found
  else if request.line.method = METHOD_POST then
    if fsWrite file request.body then HttpResponse.created
    else HttpResponse.internal_server_error
  else HttpResponse.method_not_allowed

/-- `make_router`: the four routes, in registration order. -/
def make_router (fsRead : Str → Option (List Nat)) (fsWrite : Str → List Nat → Bool)
    (pub_dir : Str) : Router :=
  { routes :=
      [ { path := "/".data, handler := rootHandler }
      , { path := "/echo".data, handler := echoHandler }
      , { path := "/user-agent".data, handler := userAgentHandler }
      , { path := "/files".data, handler := filesHandler fsRead fsWrite pub_dir } ] }

/-- `Server::handle_connection` from `src/server.rs`, over the sequence of
framed reads the socket will deliver: parse each frame, resolve it, write
the serialized response, and keep looping only while the request's
`connection` equals "keep-alive".  The result collects the written
response byte strings together with the terminal error, if any (an
exhausted reader surfaces as `EmptyRequestLine`, a parse failure as its
parse error). -/
def Server.handle_connection (gzipFn : List Nat → List Nat) (router : Router) :
    List Str → List (List Nat) × Option HttpError
  | [] => ([], some .EmptyRequestLine)
  | frame :: rest =>
    match HttpRequest.from_string frame with
    | .error e => ([], some e)
    | .ok request =>
      let response := router.resolve request
      let response_bytes := HttpResponse.to_bytes gzipFn response
      if request.connection = KEEP_ALIVE then
        let next := Server.handle_connection gzipFn router rest
        (response_bytes :: next.1, next.2)
      else ([response_bytes], none)

/-- The serialized header block: each response header as
`key ++ ": " ++ value ++ CRLF`, in map order. -/
def headerLinesBytes (hs : Headers) : List Nat :=
  flatCat (fun kv => asBytes kv.1 ++ asBytes ": ".data ++ asBytes kv.2 ++ asBytes CRLF) hs

/-- Status line plus header block: the part of `HttpResponse::to_bytes`
emitted before any body handling. -/
def respHead (r : HttpResponse) : List Nat :=
  asBytes (HTTP_VERSION_1_1 ++ " ".data ++ r.status_code.as_str) ++ asBytes CRLF
    ++ headerLinesBytes r.headers

theorem toBytes_headers_foldl (hs : Headers) (init : List Nat) :
    hs.foldl
      (fun resp kv => resp ++ asBytes kv.1 ++ asBytes ": ".data ++ asBytes kv.2 ++ asBytes CRLF)
      init = init ++ headerLinesBytes hs := by
  induction hs generalizing init with
  | nil => simp [headerLinesBytes, flatCat]
  | cons kv t ih =>
    simp only [List.foldl_cons]
    rw [ih]
    simp [headerLinesBytes, flatCat, List.append_assoc]

theorem to_bytes_nonempty (gzipFn : List Nat → List Nat) (r : HttpResponse)
    (hb : r.body ≠ []) :
    HttpResponse.to_bytes gzipFn r =
      respHead r
        ++ asBytes (CONTENT_LENGTH ++ ": ".data
              ++ Nat.toDigits 10 (encode_body_content gzipFn r).length)
        ++ asBytes CRLF ++ asBytes CRLF ++ encode_body_content gzipFn r := by
  simp only [HttpResponse.to_bytes, List.nil_append]
  rw [toBytes_headers_foldl, if_neg hb]
  simp [respHead, List.append_assoc]

theorem to_bytes_empty (gzipFn : List Nat → List Nat) (r : HttpResponse)
    (hb : r.body = []) :
    HttpResponse.to_bytes gzipFn r = respHead r ++ asBytes CRLF := by
  simp only [HttpResponse.to_bytes, List.nil_append]
  rw [toBytes_headers_foldl, if_pos hb]
  simp [respHead, List.append_assoc]

/-- C1: for a response with a non-empty body, the transmitted body is the
gzip compression of the logical body exactly when the response's
`Content-Encoding` header equals "gzip" (otherwise the body verbatim), and
the serialized output carries a `Content-Length` header whose value is the
decimal length of that transmitted body, followed by the blank line and
the transmitted body itself. -/
theorem c1_to_bytes_transmits_encoded_body (gzipFn : List Nat → List Nat)
    (r : HttpResponse) (hb : r.body ≠ []) :
    (lookupHdr r.headers CONTENT_ENCODING = some ENCODING_GZIP →
      encode_body_content gzipFn r = gzipFn r.body)
    ∧ (lookupHdr r.headers CONTENT_ENCODING ≠ some ENCODING_GZIP →
      encode_body_content gzipFn r = r.body)
    ∧ HttpResponse.to_bytes gzipFn r =
        respHead r
          ++ asBytes (CONTENT_LENGTH ++ ": ".data
                ++ Nat.toDigits 10 (encode_body_content gzipFn r).length)
          ++ asBytes CRLF ++ asBytes CRLF ++ encode_body_content gzipFn r := by
  refine ⟨?_, ?_, to_bytes_nonempty gzipFn r hb⟩
  · intro h
    simp [encode_body_content, h]
  · intro h
    unfold encode_body_content
    cases hce : lookupHdr r.headers CONTENT_ENCODING with
    | none => rfl
    | some ce =>
      rw [hce] at h
      have hne : ce ≠ ENCODING_GZIP := fun hc => h (by rw [hc])
      simp [hne]

def c1resp : HttpResponse :=
  { status_code := StatusCode.OK
    headers := [(CONTENT_ENCODING, ENCODING_GZIP)]
    body := [65] }

/-- Witness for C1 at a concrete response whose Content-Encoding is gzip:
the transmitted body is the compressor's output. -/
theorem c1_witness :
    encode_body_content (fun b => b ++ b) c1resp = [65, 65] := by
  have h := (c1_to_bytes_transmits_encoded_body (fun b => b ++ b) c1resp (by decide)).1 rfl
  rw [h]
  decide

/-- C6: a response with an empty body serializes to the status line, the
header lines, and one final CRLF, with no Content-Length header emitted;
in particular the canonical empty 200 response serializes to exactly the
bytes of "HTTP/1.1 200 OK\r\n\r\n". -/
theorem c6_to_bytes_empty_body (gzipFn : List Nat → List Nat) (r : HttpResponse)
    (hb : r.body = []) :
    HttpResponse.to_bytes gzipFn r = respHead r ++ asBytes CRLF
    ∧ HttpResponse.to_bytes gzipFn (HttpResponse.ok [] []) =
        asBytes "HTTP/1.1 200 OK\r\n\r\n".data := by
  refine ⟨to_bytes_empty gzipFn r hb, ?_⟩
  rw [to_bytes_empty gzipFn (HttpResponse.ok [] []) rfl]
  decide

/-- Witness for C6 at the empty 200 response. -/
theorem c6_witness :
    HttpResponse.to_bytes (fun b => b) (HttpResponse.ok [] []) =
      asBytes "HTTP/1.1 200 OK\r\n\r\n".data :=
  (c6_to_bytes_empty_body (fun b => b) (HttpResponse.ok [] []) rfl).2

/-- C2: `parse_body` takes the declared length from the `Content-Length`
header (failing with `InvalidContentLength` when it does not parse as a
non-negative integer, defaulting to 0 when absent), and for a positive
declared length it succeeds with the reassembled body exactly when that
body's byte length equals the declared length, failing with
`InvalidContentLength` otherwise. -/
theorem c2_parse_body_exact_length (headers : Headers) (body_lines : List Str) :
    (lookupHdr headers CONTENT_LENGTH = none →
      HttpRequest.parse_body headers body_lines = .ok [])
    ∧ (∀ s, lookupHdr headers CONTENT_LENGTH = some s → parseUsize s = none →
      HttpRequest.parse_body headers body_lines = .error .InvalidContentLength)
    ∧ (∀ s n, lookupHdr headers CONTENT_LENGTH = some s → parseUsize s = some n → 0 < n →
      HttpRequest.parse_body headers body_lines =
        (if (flatCat asBytes body_lines).length = n then .ok (flatCat asBytes body_lines)
         else .error .InvalidContentLength)) := by
  refine ⟨?_, ?_, ?_⟩
  · intro h
    simp [HttpRequest.parse_body, h]
  · intro s hs hp
    simp [HttpRequest.parse_body, hs, hp]
  · intro s n hs hp hn
    simp only [HttpRequest.parse_body, hs, hp]
    rw [if_pos (by omega)]
    by_cases hl : (flatCat asBytes body_lines).length = n
    · rw [if_neg (by omega), if_pos hl]
    · rw [if_pos (by omega), if_neg hl]

def c2headers : Headers := [(CONTENT_LENGTH, "3".data)]

def c2lines : List Str := ["abc".data]

/-- Witness for C2: a declared length of 3 with a 3-byte body parses to
exactly those bytes. -/
theorem c2_witness :
    HttpRequest.parse_body c2headers c2lines = .ok (asBytes "abc".data) := by
  have h := (c2_parse_body_exact_length c2headers c2lines).2.2 "3".data 3 rfl (by decide)
    (by decide)
  rw [h]
  decide

/-- C7 counterexample: on the header line "X: a: b" the parsed value is
"a", the segment up to the next ": " occurrence, not the full remainder
"a: b" that the claim promises. -/
theorem c7_counterexample :
    HttpRequest.parse_headers ["X: a: b".data] = .ok [("X".data, "a".data)]
    ∧ "a".data ≠ "a: b".data := by
  constructor
  · decide
  · decide

/-- C7 (amended): each header line is split on the occurrences of ": ";
a line with no separator at all fails with `MissingHeaderValue`
(`MissingHeaderKey` is unreachable), a line with an empty value after the
separator is accepted, and the key maps to the split's second element —
the segment strictly between the first and the following ": " occurrence —
rather than the full remainder of the line. -/
theorem c7_header_line_split (line : Str) :
    ((splitOn2 ':' ' ' line).length = 1 →
      HttpRequest.parse_header_line line = .error .MissingHeaderValue)
    ∧ (∀ k v rest, splitOn2 ':' ' ' line = k :: v :: rest →
      HttpRequest.parse_header_line line = .ok (k, v)) := by
  constructor
  · intro h
    unfold HttpRequest.parse_header_line
    cases hs : splitOn2 ':' ' ' line with
    | nil => rw [hs] at h; simp at h
    | cons k t =>
      cases t with
      | nil => rfl
      | cons v t' => rw [hs] at h; simp at h
  · intro k v rest h
    unfold HttpRequest.parse_header_line
    rw [h]

/-- Witness for C7: a line whose value after the separator is empty is
still accepted, the value being the empty segment after the separator. -/
theorem c7_witness :
    HttpRequest.parse_header_line "Key: ".data = .ok ("Key".data, []) :=
  (c7_header_line_split "Key: ".data).2 "Key".data [] [] (by decide)

theorem lookupHdr_insertHdr_self (hs : Headers) (k v : Str) :
    lookupHdr (insertHdr hs k v) k = some v := by
  induction hs with
  | nil => simp [insertHdr, lookupHdr]
  | cons kv t ih =>
    by_cases h : kv.1 = k
    · simp [insertHdr, h, lookupHdr]
    · simp [insertHdr, h, lookupHdr, ih]

theorem accept_encoding_foldl (ts : List Str) (hs : Headers) :
    lookupHdr
      (ts.foldl
        (fun acc encoding =>
          if encoding = ENCODING_GZIP then insertHdr acc CONTENT_ENCODING encoding else acc)
        hs)
      CONTENT_ENCODING =
      (if ENCODING_GZIP ∈ ts then some ENCODING_GZIP else lookupHdr hs CONTENT_ENCODING) := by
  induction ts generalizing hs with
  | nil => simp
  | cons t rest ih =>
    by_cases h : t = ENCODING_GZIP
    · subst h
      simp only [List.foldl_cons, if_pos rfl, ih, List.mem_cons, true_or, if_pos]
      by_cases hr : ENCODING_GZIP ∈ rest
      · rw [if_pos hr]
      · rw [if_neg hr, lookupHdr_insertHdr_self]
    · simp only [List.foldl_cons, if_neg h, ih, List.mem_cons]
      have : (ENCODING_GZIP = t ∨ ENCODING_GZIP ∈ rest) ↔ ENCODING_GZIP ∈ rest := by
        constructor
        · rintro (he | hr)
          · exact absurd he.symm h
          · exact hr
        · exact Or.inr
      rw [if_congr this rfl rfl]

/-- The token list the code actually derives from the `Accept-Encoding`
header value: split on the two-character separator ", ", trim each token,
drop empty tokens. -/
def acceptTokens (v : Str) : List Str :=
  ((splitOn2 ',' ' ' v).map rustTrim).filter (fun s => s ≠ [])

/-- C5 (amended): starting from response headers without a
`Content-Encoding` entry, the helper sets `Content-Encoding: gzip` iff the
list obtained by splitting the request's `Accept-Encoding` header on the
exact two-character separator ", " and trimming each token contains
"gzip"; every other token is ignored and the helper never fails.  A comma
not followed by a space does not separate tokens. -/
theorem c5_accept_encoding_token_match (req : HttpRequest) (hs : Headers)
    (h0 : lookupHdr hs CONTENT_ENCODING = none) :
    lookupHdr (accept_encoding req hs) CONTENT_ENCODING =
      (match lookupHdr req.headers ACCEPT_ENCODING with
       | none => none
       | some v => if ENCODING_GZIP ∈ acceptTokens v then some ENCODING_GZIP else none) := by
  unfold accept_encoding
  cases hae : lookupHdr req.headers ACCEPT_ENCODING with
  | none => exact h0
  | some v =>
    rw [accept_encoding_foldl]
    show _ = if ENCODING_GZIP ∈ acceptTokens v then some ENCODING_GZIP else none
    unfold acceptTokens
    by_cases h : ENCODING_GZIP ∈ ((splitOn2 ',' ' ' v).map rustTrim).filter (fun s => s ≠ [])
    · rw [if_pos h, if_pos h]
    · rw [if_neg h, if_neg h, h0]

def c5req : HttpRequest :=
  { line := { method := METHOD_GET, path := "/echo/x".data, version := HTTP_VERSION_1_1 }
    headers := [(ACCEPT_ENCODING, "gzip,deflate".data)]
    connection := KEEP_ALIVE
    body := [] }

/-- The token list described by the claim's words: the comma-separated,
whitespace-trimmed tokens of the header value. -/
def commaTokensSpec (v : Str) : List Str := (splitOn1 ',' v).map rustTrim

/-- C5 counterexample: for the header value "gzip,deflate" the
comma-separated trimmed token list contains "gzip", yet the helper sets no
`Content-Encoding` header, because the code splits on the two-character
separator ", " and the bare comma does not separate. -/
theorem c5_counterexample :
    ENCODING_GZIP ∈ commaTokensSpec "gzip,deflate".data
    ∧ lookupHdr (accept_encoding c5req [(CONTENT_TYPE, CT_TEXT_PLAIN)]) CONTENT_ENCODING
        = none := by
  constructor
  · decide
  · decide

def c5wreq : HttpRequest :=
  { line := { method := METHOD_GET, path := "/echo/x".data, version := HTTP_VERSION_1_1 }
    headers := [(ACCEPT_ENCODING, "deflate, gzip".data)]
    connection := KEEP_ALIVE
    body := [] }

/-- Witness for C5: with `Accept-Encoding: deflate, gzip` the helper sets
`Content-Encoding: gzip`. -/
theorem c5_witness :
    lookupHdr (accept_encoding c5wreq []) CONTENT_ENCODING = some ENCODING_GZIP := by
  have h := c5_accept_encoding_token_match c5wreq [] rfl
  rw [h]
  decide

/-- The first path segment as the claim words it: the substring of the
path after stripping one leading '/', up to (excluding) the next '/' or
the end of the string. -/
def firstSegmentSpec (p : Str) : Str :=
  (match p with
   | '/' :: rest => rest
   | other => other).takeWhile (fun c => c ≠ '/')

def c4req : HttpRequest :=
  { line := { method := METHOD_GET, path := "//echo".data, version := HTTP_VERSION_1_1 }
    headers := []
    connection := KEEP_ALIVE
    body := [] }

def c4router : Router :=
  { routes := [{ path := "/echo".data, handler := fun _ => HttpResponse.created }] }

/-- C4 counterexample: for the request path "//echo", the claim's
first-segment rule (strip exactly one leading '/') yields "" for the
request but "echo" for the registered route "/echo", so under the claim no
route matches and the result must be the not-found response; the code,
which strips every leading '/', matches the route and returns its
handler's response instead. -/
theorem c4_counterexample :
    firstSegmentSpec "//echo".data ≠ firstSegmentSpec "/echo".data
    ∧ Router.resolve c4router c4req = HttpResponse.created
    ∧ HttpResponse.created ≠ HttpResponse.not_found := by
  refine ⟨by decide, by decide, by decide⟩

/-- C4 (amended): `Router.resolve` returns the response of the handler of
the first route in registration order whose first path segment — the
substring of the path after stripping every leading '/' up to (excluding)
the next '/' or end of string — equals the request path's first path
segment, and when no route matches it returns the canonical not-found
response with empty body and empty headers, never failing. -/
theorem c4_resolve_first_match (routes : List Route) (req : HttpRequest) :
    Router.resolve { routes := routes } req =
      (match routes.find?
          (fun route =>
            decide (Router.parse_path req.line.path = Router.parse_path route.path)) with
       | some route => route.handler req
       | none => HttpResponse.not_found)
    ∧ HttpResponse.not_found.body = [] ∧ HttpResponse.not_found.headers = [] := by
  refine ⟨?_, rfl, rfl⟩
  induction routes with
  | nil => rfl
  | cons route rest ih =>
    show Router.resolveGo req (route :: rest) = _
    unfold Router.resolveGo
    by_cases h : Router.parse_path req.line.path = Router.parse_path route.path
    · rw [if_pos h, List.find?_cons_of_pos _ (by simpa using h)]
    · rw [if_neg h, List.find?_cons_of_neg _ (by simpa using h)]
      exact ih

/-- C8 counterexample: a DELETE on the matched route "/" produces the
405 response, and that response carries no Allow header at all (its
header map is empty), contradicting the claimed Allow header. -/
theorem c8_counterexample :
    Router.resolve (make_router (fun _ => none) (fun _ _ => true) [])
        { line := { method := "DELETE".data, path := "/".data, version := HTTP_VERSION_1_1 }
          headers := []
          connection := KEEP_ALIVE
          body := [] }
      = HttpResponse.method_not_allowed
    ∧ HttpResponse.method_not_allowed.status_code = StatusCode.NOT_ALLOWED
    ∧ lookupHdr HttpResponse.method_not_allowed.headers "Allow".data = none := by
  refine ⟨by decide, rfl, rfl⟩

/-- C8 (amended): a request whose first path segment matches a registered
route but whose method is not one handled by that route (any method other
than GET for the "/", "/echo" and "/user-agent" routes; any method other
than GET and POST for the "/files" route) resolves to the 405 Method Not
Allowed response, which has empty headers — in particular it carries no
Allow header — and an empty body. -/
theorem c8_unhandled_method_405 (fsRead : Str → Option (List Nat))
    (fsWrite : Str → List Nat → Bool) (pub_dir : Str) (req : HttpRequest)
    (hseg : (Router.parse_path req.line.path = [] ∧ req.line.method ≠ METHOD_GET)
      ∨ (Router.parse_path req.line.path = "echo".data ∧ req.line.method ≠ METHOD_GET)
      ∨ (Router.parse_path req.line.path = "user-agent".data ∧ req.line.method ≠ METHOD_GET)
      ∨ (Router.parse_path req.line.path = "files".data ∧ req.line.method ≠ METHOD_GET
          ∧ req.line.method ≠ METHOD_POST)) :
    Router.resolve (make_router fsRead fsWrite pub_dir) req = HttpResponse.method_not_allowed
    ∧ HttpResponse.method_not_allowed.status_code = StatusCode.NOT_ALLOWED
    ∧ HttpResponse.method_not_allowed.headers = []
    ∧ HttpResponse.method_not_allowed.body = [] := by
  refine ⟨?_, rfl, rfl, rfl⟩
  show Router.resolveGo req (make_router fsRead fsWrite pub_dir).routes = _
  rcases hseg with ⟨h, hg⟩ | ⟨h, hg⟩ | ⟨h, hg⟩ | ⟨h, hg, hp⟩
  · simp only [make_router, Router.resolveGo, h]
    rw [if_pos (by decide)]
    unfold rootHandler
    rw [if_neg hg]
  · simp only [make_router, Router.resolveGo, h]
    rw [if_neg (by decide), if_pos (by decide)]
    unfold echoHandler
    rw [if_neg hg]
  · simp only [make_router, Router.resolveGo, h]
    rw [if_neg (by decide), if_neg (by decide), if_pos (by decide)]
    unfold userAgentHandler
    rw [if_neg hg]
  · simp only [make_router, Router.resolveGo, h]
    rw [if_neg (by decide), if_neg (by decide), if_neg (by decide), if_pos (by decide)]
    unfold filesHandler
    rw [if_neg hg, if_neg hp]

/-- Witness for C8 at a POST on the matched route "/echo", whose handler
accepts only GET. -/
theorem c8_witness :
    Router.resolve (make_router (fun _ => none) (fun _ _ => false) [])
        { line := { method := METHOD_POST, path := "/echo/x".data, version := HTTP_VERSION_1_1 }
          headers := []
          connection := KEEP_ALIVE
          body := [] }
      = HttpResponse.method_not_allowed :=
  (c8_unhandled_method_405 (fun _ => none) (fun _ _ => false) [] _
    (Or.inr (Or.inl ⟨by decide, by decide⟩))).1

theorem from_lines_connection (rl : Str) (hl bl : List Str) (r : HttpRequest)
    (h : HttpRequest.from_lines rl hl bl = .ok r) :
    r.connection = (lookupHdr r.headers CONNECTION).getD KEEP_ALIVE := by
  unfold HttpRequest.from_lines at h
  split at h
  · exact absurd h (by simp)
  · split at h
    · exact absurd h (by simp)
    · split at h
      · exact absurd h (by simp)
      · simp only [Except.ok.injEq] at h
        subst h
        rfl

theorem from_string_connection (s : Str) (r : HttpRequest)
    (h : HttpRequest.from_string s = .ok r) :
    r.connection = (lookupHdr r.headers CONNECTION).getD KEEP_ALIVE := by
  unfold HttpRequest.from_string HttpRequest.from_strings at h
  cases hs : (splitOn2 '\r' '\n' s).head? with
  | none => rw [hs] at h; exact absurd h (by simp)
  | some request_line =>
    rw [hs] at h
    exact from_lines_connection _ _ _ _ h

/-- C3: after a response is written, the connection loop reads another
request on the same socket iff `connection` equals "keep-alive"
(case-sensitively): with that value the result of handling the remaining
frames is processed and appended, with any other value the loop stops with
only this response written and no error; and the `connection` field of a
parsed request is the request's `Connection` header, defaulting to
"keep-alive" when the header is absent. -/
theorem c3_keep_alive_loop (gzipFn : List Nat → List Nat) (router : Router)
    (frame : Str) (rest : List Str) (req : HttpRequest)
    (hp : HttpRequest.from_string frame = .ok req) :
    (req.connection = KEEP_ALIVE →
      Server.handle_connection gzipFn router (frame :: rest) =
        (HttpResponse.to_bytes gzipFn (Router.resolve router req)
            :: (Server.handle_connection gzipFn router rest).1,
          (Server.handle_connection gzipFn router rest).2))
    ∧ (req.connection ≠ KEEP_ALIVE →
      Server.handle_connection gzipFn router (frame :: rest) =
        ([HttpResponse.to_bytes gzipFn (Router.resolve router req)], none))
    ∧ req.connection = (lookupHdr req.headers CONNECTION).getD KEEP_ALIVE := by
  refine ⟨?_, ?_, from_string_connection frame req hp⟩
  · intro hka
    simp only [Server.handle_connection, hp]
    rw [if_pos hka]
  · intro hka
    simp only [Server.handle_connection, hp]
    rw [if_neg hka]

def c3frame : Str := "GET / HTTP/1.1\r\n\r\n".data

def c3req : HttpRequest :=
  { line := { method := METHOD_GET, path := "/".data, version := HTTP_VERSION_1_1 }
    headers := []
    connection := KEEP_ALIVE
    body := [] }

/-- Witness for C3: one keep-alive frame is answered and the loop then
tries to read again, hitting the end of the frame stream. -/
theorem c3_witness :
    Server.handle_connection (fun b => b) { routes := [] } [c3frame] =
      ([HttpResponse.to_bytes (fun b => b) (Router.resolve { routes := [] } c3req)],
        some .EmptyRequestLine) := by
  have h := (c3_keep_alive_loop (fun b => b) { routes := [] } c3frame [] c3req (by decide)).1
    (by decide)
  rw [h]
  rfl

theorem splitOn2_ne_nil (a b : Char) (s : Str) : splitOn2 a b s ≠ [] := by
  match s with
  | [] => simp [splitOn2]
  | [c] => simp [splitOn2]
  | c1 :: c2 :: rest =>
    simp only [splitOn2]
    split
    · simp
    · split
      · simp
      · simp

theorem parse_header_line_error (line : Str) (e : HttpError)
    (h : HttpRequest.parse_header_line line = .error e) : e = .MissingHeaderValue := by
  unfold HttpRequest.parse_header_line at h
  split at h
  · exact absurd (by assumption) (splitOn2_ne_nil ':' ' ' line)
  · simp only [Except.error.injEq] at h
    exact h.symm
  · exact absurd h (by simp)

theorem parse_headersAux_error (lines : List Str) (hdrs : Headers) (e : HttpError)
    (h : HttpRequest.parse_headersAux hdrs lines = .error e) : e = .MissingHeaderValue := by
  induction lines generalizing hdrs with
  | nil => exact absurd h (by simp [HttpRequest.parse_headersAux])
  | cons line rest ih =>
    unfold HttpRequest.parse_headersAux at h
    split at h
    · exact absurd h (by simp)
    · split at h
      · simp only [Except.error.injEq] at h
        subst h
        exact parse_header_line_error line _ (by assumption)
      · exact ih _ h

theorem from_line_error (l : Str) (e : HttpError)
    (h : RequestLine.from_line l = .error e) :
    e = .MissingMethod ∨ e = .MissingPath ∨ e = .MissingVersion ∨ e = .UnsupportedVersion := by
  unfold RequestLine.from_line at h
  split at h
  · simp only [Except.error.injEq] at h; exact Or.inl h.symm
  · simp only [Except.error.injEq] at h; exact Or.inr (Or.inl h.symm)
  · simp only [Except.error.injEq] at h; exact Or.inr (Or.inr (Or.inl h.symm))
  · split at h
    · simp only [Except.error.injEq] at h; exact Or.inr (Or.inr (Or.inr h.symm))
    · exact absurd h (by simp)

theorem parse_body_error (headers : Headers) (bl : List Str) (e : HttpError)
    (h : HttpRequest.parse_body headers bl = .error e) : e = .InvalidContentLength := by
  unfold HttpRequest.parse_body at h
  split at h
  · exact absurd h (by simp)
  · split at h
    · simp only [Except.error.injEq] at h; exact h.symm
    · split at h
      · simp only [] at h
        split at h
        · simp only [Except.error.injEq] at h; exact h.symm
        · exact absurd h (by simp)
      · exact absurd h (by simp)

theorem from_lines_error (rl : Str) (hl bl : List Str) (e : HttpError)
    (h : HttpRequest.from_lines rl hl bl = .error e) :
    e ≠ .MissingRequestLine ∧ e ≠ .MissingHeaderKey := by
  unfold HttpRequest.from_lines at h
  split at h
  · simp only [Except.error.injEq] at h
    subst h
    rcases from_line_error _ _ (by assumption) with h' | h' | h' | h' <;> subst h' <;>
      exact ⟨by decide, by decide⟩
  · split at h
    · simp only [Except.error.injEq] at h
      subst h
      have h' := parse_headersAux_error _ _ _ (by assumption)
      subst h'
      exact ⟨by decide, by decide⟩
    · split at h
      · simp only [Except.error.injEq] at h
        subst h
        have h' := parse_body_error _ _ _ (by assumption)
        subst h'
        exact ⟨by decide, by decide⟩
      · exact absurd h (by simp)

/-- C10: `from_string` can never surface `MissingRequestLine` (splitting a
string always yields at least one line) nor `MissingHeaderKey` (splitting
a header line always yields a first element); the empty input fails with
`MissingMethod` instead. -/
theorem c10_unreachable_errors :
    (∀ s : Str, HttpRequest.from_string s ≠ .error .MissingRequestLine
      ∧ HttpRequest.from_string s ≠ .error .MissingHeaderKey)
    ∧ HttpRequest.from_string [] = .error .MissingMethod := by
  constructor
  · intro s
    cases hs : splitOn2 '\r' '\n' s with
    | nil => exact absurd hs (splitOn2_ne_nil '\r' '\n' s)
    | cons rl rest =>
      have hred : HttpRequest.from_string s =
          HttpRequest.from_lines rl ((rest).takeWhile (fun l => !l.isEmpty))
            ((rl :: rest).drop (1 + ((rest).takeWhile (fun l => !l.isEmpty)).length + 1)) := by
        unfold HttpRequest.from_string HttpRequest.from_strings
        rw [hs]
        rfl
      rw [hred]
      constructor
      · intro h
        exact (from_lines_error _ _ _ _ h).1 rfl
      · intro h
        exact (from_lines_error _ _ _ _ h).2 rfl
  · decide

/-- Witness for C10 at a concrete well-formed input. -/
theorem c10_witness :
    HttpRequest.from_string "GET / HTTP/1.1\r\n\r\n".data ≠ .error .MissingRequestLine :=
  (c10_unreachable_errors.1 "GET / HTTP/1.1\r\n\r\n".data).1

theorem flatCat_length (f : α → List β) :
    ∀ l : List α, (flatCat f l).length = (l.map (fun x => (f x).length)).sum
  | [] => rfl
  | x :: xs => by simp [flatCat, flatCat_length f xs]

theorem splitOn2_append (a b : Char) (hab : a ≠ b) :
    ∀ s t : Str, contains2 a b s = false →
      splitOn2 a b (s ++ a :: b :: t) = s :: splitOn2 a b t
  | [], t, _ => by
    simp [splitOn2]
  | [c], t, _ => by
    have h1 : splitOn2 a b (a :: b :: t) = [] :: splitOn2 a b t := by simp [splitOn2]
    show (if c = a ∧ a = b then [] :: splitOn2 a b (b :: t)
          else match splitOn2 a b (a :: b :: t) with
            | [] => [[c]]
            | l :: ls => (c :: l) :: ls) = [c] :: splitOn2 a b t
    rw [if_neg (fun hcc => hab hcc.2), h1]
  | c1 :: c2 :: rest, t, hc => by
    have hcc : ¬(c1 = a ∧ c2 = b) := by
      intro hcc
      unfold contains2 at hc
      rw [if_pos hcc] at hc
      exact absurd hc (by decide)
    have hc2 : contains2 a b (c2 :: rest) = false := by
      unfold contains2 at hc
      rwa [if_neg hcc] at hc
    have ih := splitOn2_append a b hab (c2 :: rest) t hc2
    show (if c1 = a ∧ c2 = b then [] :: splitOn2 a b (rest ++ a :: b :: t)
          else match splitOn2 a b ((c2 :: rest) ++ a :: b :: t) with
            | [] => [[c1]]
            | l :: ls => (c1 :: l) :: ls) = (c1 :: c2 :: rest) :: splitOn2 a b t
    rw [if_neg hcc, ih]

theorem splitOn2_bytes_sum (a b : Char)
    (h1 : (charUtf8 a).length = 1) (h2 : (charUtf8 b).length = 1) :
    ∀ s : Str,
      ((splitOn2 a b s).map (fun l => (asBytes l).length)).sum + 2 * (splitOn2 a b s).length
        = (asBytes s).length + 2
  | [] => by simp [splitOn2, asBytes, flatCat]
  | [c] => by simp [splitOn2, asBytes, flatCat]
  | c1 :: c2 :: rest => by
    by_cases hcc : c1 = a ∧ c2 = b
    · have ih := splitOn2_bytes_sum a b h1 h2 rest
      obtain ⟨e1, e2⟩ := hcc
      subst e1
      subst e2
      have hsp : splitOn2 c1 c2 (c1 :: c2 :: rest) = [] :: splitOn2 c1 c2 rest := by
        show (if c1 = c1 ∧ c2 = c2 then [] :: splitOn2 c1 c2 rest
              else match splitOn2 c1 c2 (c2 :: rest) with
                | [] => [[c1]]
                | l :: ls => (c1 :: l) :: ls) = [] :: splitOn2 c1 c2 rest
        rw [if_pos ⟨rfl, rfl⟩]
      rw [hsp]
      simp only [List.map_cons, List.sum_cons, List.length_cons, asBytes, flatCat,
        List.length_append, List.length_nil, h1, h2] at ih ⊢
      omega
    · have ih := splitOn2_bytes_sum a b h1 h2 (c2 :: rest)
      cases hsp : splitOn2 a b (c2 :: rest) with
      | nil => exact absurd hsp (splitOn2_ne_nil a b _)
      | cons l ls =>
        rw [hsp] at ih
        have hsp2 : splitOn2 a b (c1 :: c2 :: rest) = (c1 :: l) :: ls := by
          show (if c1 = a ∧ c2 = b then [] :: splitOn2 a b rest
                else match splitOn2 a b (c2 :: rest) with
                  | [] => [[c1]]
                  | l :: ls => (c1 :: l) :: ls) = (c1 :: l) :: ls
          rw [if_neg hcc, hsp]
        rw [hsp2]
        simp only [List.map_cons, List.sum_cons, List.length_cons, asBytes, flatCat,
          List.length_append] at ih ⊢
        omega

theorem contains2_two_le (a b : Char) :
    ∀ s : Str, contains2 a b s = true → 2 ≤ (splitOn2 a b s).length
  | [], h => by simp [contains2] at h
  | [c], h => by simp [contains2] at h
  | c1 :: c2 :: rest, h => by
    by_cases hcc : c1 = a ∧ c2 = b
    · simp only [splitOn2, if_pos hcc, List.length_cons]
      have hpos : 0 < (splitOn2 a b rest).length :=
        List.length_pos.mpr (splitOn2_ne_nil a b rest)
      omega
    · have h2 : contains2 a b (c2 :: rest) = true := by
        unfold contains2 at h
        rwa [if_neg hcc] at h
      have ih := contains2_two_le a b (c2 :: rest) h2
      cases hsp : splitOn2 a b (c2 :: rest) with
      | nil => exact absurd hsp (splitOn2_ne_nil a b _)
      | cons l ls =>
        rw [hsp] at ih
        simp only [splitOn2, if_neg hcc, hsp, List.length_cons] at ih ⊢
        omega

theorem takeWhile_append_stop (hls t : List Str) (h : ∀ l ∈ hls, l ≠ []) :
    (hls ++ [] :: t).takeWhile (fun l => !l.isEmpty) = hls := by
  induction hls with
  | nil => simp [List.takeWhile]
  | cons x xs ih =>
    have hx : x ≠ [] := h x (by simp)
    have hxe : (!x.isEmpty) = true := by
      cases x with
      | nil => exact absurd rfl hx
      | cons c cs => rfl
    simp only [List.cons_append, List.takeWhile_cons, hxe, if_true]
    rw [ih (fun l hl => h l (by simp [hl]))]

theorem drop_len_add_one (hls : List Str) (x : Str) (t : List Str) :
    (hls ++ x :: t).drop (hls.length + 1) = t := by
  induction hls with
  | nil => simp
  | cons y ys ih =>
    simp only [List.cons_append, List.length_cons, List.drop_succ_cons]
    exact ih

theorem from_strings_decompose (rl : Str) (hls t : List Str) (hne : ∀ l ∈ hls, l ≠ []) :
    HttpRequest.from_strings (rl :: (hls ++ [] :: t)) = HttpRequest.from_lines rl hls t := by
  unfold HttpRequest.from_strings
  simp only [List.head?_cons, List.drop_succ_cons, List.drop_zero]
  rw [takeWhile_append_stop hls t hne]
  have hd : (hls ++ [] :: t).drop (1 + hls.length) = t := by
    rw [Nat.add_comm 1 hls.length, drop_len_add_one]
  rw [hd]

theorem splitCRLF_header_block (hls : List Str) (body : Str)
    (h : ∀ l ∈ hls, contains2 '\r' '\n' l = false) :
    splitOn2 '\r' '\n' (flatCat (fun l => l ++ CRLF) hls ++ CRLF ++ body)
      = hls ++ [] :: splitOn2 '\r' '\n' body := by
  induction hls with
  | nil =>
    have happ := splitOn2_append '\r' '\n' (by decide) [] body (by simp [contains2])
    simp only [flatCat, CRLF, List.nil_append]
    exact happ
  | cons l ls ih =>
    have hl : contains2 '\r' '\n' l = false := h l (by simp)
    have ihl := ih (fun x hx => h x (by simp [hx]))
    have happ := splitOn2_append '\r' '\n' (by decide) l
      (flatCat (fun l => l ++ CRLF) ls ++ CRLF ++ body) hl
    simp only [flatCat, CRLF, List.append_assoc, List.cons_append, List.nil_append] at *
    rw [happ, ihl]

/-- C9: a raw request whose positive declared Content-Length matches the
wire body exactly still fails with `InvalidContentLength` whenever the
body bytes contain a CRLF, because the body is reassembled from the
CRLF-split lines without the delimiters and so comes out strictly
shorter. -/
theorem c9_body_with_crlf_fails (rl : Str) (hls : List Str) (body : Str)
    (rline : RequestLine) (hdrs : Headers) (cls : Str)
    (h1 : contains2 '\r' '\n' rl = false)
    (h2 : ∀ l ∈ hls, l ≠ [] ∧ contains2 '\r' '\n' l = false)
    (h3 : RequestLine.from_line rl = .ok rline)
    (h4 : HttpRequest.parse_headers hls = .ok hdrs)
    (h5 : lookupHdr hdrs CONTENT_LENGTH = some cls)
    (h6 : parseUsize cls = some (asBytes body).length)
    (h7 : 0 < (asBytes body).length)
    (h8 : contains2 '\r' '\n' body = true) :
    HttpRequest.from_string (rl ++ CRLF ++ flatCat (fun l => l ++ CRLF) hls ++ CRLF ++ body)
      = .error .InvalidContentLength := by
  have hsplit :
      splitOn2 '\r' '\n' (rl ++ CRLF ++ flatCat (fun l => l ++ CRLF) hls ++ CRLF ++ body)
        = rl :: (hls ++ [] :: splitOn2 '\r' '\n' body) := by
    have htail := splitCRLF_header_block hls body (fun l hl => (h2 l hl).2)
    have happ := splitOn2_append '\r' '\n' (by decide) rl
      (flatCat (fun l => l ++ CRLF) hls ++ CRLF ++ body) h1
    simp only [CRLF, List.append_assoc, List.cons_append, List.nil_append] at *
    rw [happ, htail]
  have hpb : HttpRequest.parse_body hdrs (splitOn2 '\r' '\n' body)
      = .error .InvalidContentLength := by
    simp only [HttpRequest.parse_body, h5, h6]
    rw [if_pos (by omega)]
    have hsum := splitOn2_bytes_sum '\r' '\n' (by decide) (by decide) body
    have hlen2 := contains2_two_le '\r' '\n' body h8
    have hflat := flatCat_length asBytes (splitOn2 '\r' '\n' body)
    rw [if_pos (by omega)]
  unfold HttpRequest.from_string
  rw [hsplit, from_strings_decompose rl hls _ (fun l hl => (h2 l hl).1)]
  simp only [HttpRequest.from_lines, h3, h4, hpb]

/-- Witness for C9: the 7-byte body "ab\r\ncde" with a correct
Content-Length of 7 is rejected. -/
theorem c9_witness :
    HttpRequest.from_string
        "POST /files/x HTTP/1.1\r\nContent-Length: 7\r\n\r\nab\r\ncde".data
      = .error .InvalidContentLength := by
  have h := c9_body_with_crlf_fails "POST /files/x HTTP/1.1".data
    ["Content-Length: 7".data] "ab\r\ncde".data
    ⟨"POST".data, "/files/x".data, "HTTP/1.1".data⟩
    [("Content-Length".data, "7".data)] "7".data
    (by decide) (by decide) (by decide) (by decide) (by decide) (by decide) (by decide)
    (by decide)
  exact h

example : HttpRequest.parse_header_line "Host: localhost:4221".data =
    .ok ("Host".data, "localhost:4221".data) := by decide

example : RequestLine.from_line "GET /index.html HTTP/1.1".data =
    .ok ⟨"GET".data, "/index.html".data, "HTTP/1.1".data⟩ := by decide

example : (HttpRequest.from_string "GET / HTTP/1.1\r\nHost: localhost:4221\r\n\r\n".data).isOk :=
  by decide
